import Mathlib

/-!
Shallow embedding of the MSSQL (TDS) packet framer and message demultiplexer of
`sqlx-core/src/mssql/connection/stream.rs` (struct `MssqlStream`), together with
theorems checking the natural-language specification of that component.

The embedding has two layers, mirroring the code:

* a byte layer for the packet framing (`write_packet`, `recv_packet`), where the
  outbound buffer and the inbound transport are `List Nat` of byte values;
* a message layer for `recv_message` / `wait_until_ready` / `handle_done` /
  `handle_error`, where — since the per-token decoders of
  `sqlx-core/src/mssql/protocol/*` are not part of the sources under
  verification — a reassembled packet payload is represented as the list of the
  decoded tokens it contains (modelled from the spec, which describes a message
  as "a tagged sequence of message tokens", each tag determining its own
  encoding).

All loops of the source are embedded as fuel-indexed structural recursions
returning `Option` (`none` = the loop did not finish within the given number of
iterations); every statement proved below is either fuel-generic or supplies a
concrete sufficient fuel, so no behaviour is hidden by fuel exhaustion.
-/

namespace Mssql

/-- Status bit 0x01 = END_OF_MESSAGE (wire format invariant from the spec). -/
def END_OF_MESSAGE : Nat := 1

/-- Status value of a non-final packet; `Status::NORMAL` carries no bits. -/
def NORMAL : Nat := 0

/-- Modelled from the spec: the Done-family "more results follow" status bit
(`DoneStatus::DONE_MORE`, declared in `protocol/done.rs` which is not under the
sources); the spec fixes only that it is a single status bit, we use 0x1. -/
def DONE_MORE : Nat := 1

/-- `const DEFAULT_PACKET_SIZE: u16 = 4096;` from stream.rs. -/
def DEFAULT_PACKET_SIZE : Nat := 4096

/-- Modelled from the spec: the packet type enum (`PacketType`, declared in
`protocol/packet.rs` which is not under the sources). The spec lists "tabular
result, RPC, SQL batch, bulk load, attention, etc."; the byte values are the
TDS ones. Only `tabularResult` versus anything else matters to the claims. -/
inductive PacketType
  | sqlBatch
  | preTds7Login
  | rpc
  | tabularResult
  | attentionSignal
  | bulkLoadData
  | transactionManagerRequest
  | tds7Login
  | sspi
  | preLogin
deriving DecidableEq

/-- Wire byte of each packet type. -/
def packetTypeByte : PacketType → Nat
  | .sqlBatch => 1
  | .preTds7Login => 2
  | .rpc => 3
  | .tabularResult => 4
  | .attentionSignal => 6
  | .bulkLoadData => 7
  | .transactionManagerRequest => 14
  | .tds7Login => 16
  | .sspi => 17
  | .preLogin => 18

/-- Modelled from the spec: decoding a packet type byte (`PacketType::get`),
failing on an unknown byte. -/
def decodePacketType : Nat → Option PacketType
  | 1 => some .sqlBatch
  | 2 => some .preTds7Login
  | 3 => some .rpc
  | 4 => some .tabularResult
  | 6 => some .attentionSignal
  | 7 => some .bulkLoadData
  | 14 => some .transactionManagerRequest
  | 16 => some .tds7Login
  | 17 => some .sspi
  | 18 => some .preLogin
  | _ => none

/-- Debug-style name of a packet type, as interpolated by
`err_protocol!("received unexpected packet: {:?}", header.r#type)`. -/
def packetTypeName : PacketType → String
  | .sqlBatch => "SqlBatch"
  | .preTds7Login => "PreTds7Login"
  | .rpc => "Rpc"
  | .tabularResult => "TabularResult"
  | .attentionSignal => "AttentionSignal"
  | .bulkLoadData => "BulkLoadData"
  | .transactionManagerRequest => "TransactionManagerRequest"
  | .tds7Login => "Tds7Login"
  | .sspi => "Sspi"
  | .preLogin => "PreLogin"

/-- In-memory packet header, mirroring `PacketHeader` of `protocol/packet.rs`
(fields `r#type`, `status`, `length`, `server_process_id`, `packet_id`; the
window byte is always 0 on the wire and not stored). As in the source,
`length` holds the payload byte count: `write_packet` stores `chunk.len()`
and `recv_packet` reads `header.length` payload bytes. -/
structure PacketHeader where
  type : PacketType
  status : Nat
  length : Nat
  server_process_id : Nat
  packet_id : Nat
deriving DecidableEq

/-- `PacketHeader::SIZE`: the fixed 8-byte header size. -/
def PacketHeader.SIZE : Nat := 8

/-- Modelled from the spec: the header codec's encode (`Encode for
PacketHeader` in `protocol/packet.rs`, not under the sources). Layout per the
spec: type:1, status:1, length:2 big-endian, routing id:2, packet id:1,
window:1. The spec fixes that the wire length field "counts the whole packet
including header", while `write_packet` stores the bare chunk length and
`recv_packet` reads `header.length` payload bytes; consistency of those three
spec sentences forces the codec to add `PacketHeader.SIZE` on encode and
subtract it on decode. -/
def encodePacketHeader (h : PacketHeader) : List Nat :=
  [ packetTypeByte h.type
  , h.status % 256
  , ((h.length + PacketHeader.SIZE) / 256) % 256
  , (h.length + PacketHeader.SIZE) % 256
  , (h.server_process_id / 256) % 256
  , h.server_process_id % 256
  , h.packet_id % 256
  , 0 ]

/-- Errors surfaced by the embedded operations, mirroring the driver's
`Error` kinds used by stream.rs: protocol errors with a diagnostic string,
server-reported database errors, transport failures, and an arithmetic
underflow crash (a Rust panic). -/
inductive DriverError
  | protocol (message : String)
  | database (number : Nat) (severity : Nat) (message : String)
  | transport
  | crash
deriving DecidableEq

deriving instance DecidableEq for Except

/-- Modelled from the spec: the header codec's decode (`Decode for
PacketHeader`). Fails as a transport error when fewer than 8 bytes are
available, as a protocol error on an unknown type byte; otherwise returns the
header (with `length` = wire length minus the 8-byte header size, see
`encodePacketHeader`) and the remaining bytes. -/
def decodePacketHeader : List Nat → Except DriverError (PacketHeader × List Nat)
  | t :: st :: l1 :: l2 :: p1 :: p2 :: pid :: _win :: rest =>
    match decodePacketType t with
    | some ty =>
        .ok ({ type := ty, status := st, length := (256 * l1 + l2) - PacketHeader.SIZE
             , server_process_id := 256 * p1 + p2, packet_id := pid }, rest)
    | none => .error (.protocol ("unknown packet type: " ++ toString t))
  | _ => .error .transport

/-- Modelled from the spec: `PacketHeader::update_status` — the in-place patch
that flips on a status bit of an already-written header at byte offset
`offset` of the buffer (the status byte is at `offset + 1`). Out-of-range
offsets leave the buffer unchanged (`List.set` semantics); the Rust original
would panic there. -/
def update_status (buf : List Nat) (offset : Nat) (st : Nat) : List Nat :=
  buf.set (offset + 1) (buf.getD (offset + 1) 0 ||| st)

/-- Fuel-indexed embedding of Rust's `slice::chunks`: split `l` into
consecutive pieces of `n` elements, the last possibly shorter. Any fuel
at least `l.length` gives the true chunk decomposition. -/
def chunksFuel (n : Nat) : Nat → List Nat → List (List Nat)
  | 0, _ => []
  | f + 1, l => if l = [] then [] else l.take n :: chunksFuel n f (l.drop n)

/-- `full_msg.chunks(chunk_size)` from `write_packet`. For `n = 0` the Rust
original panics; no theorem below uses that case. -/
def chunks (n : Nat) (l : List Nat) : List (List Nat) :=
  chunksFuel n l.length l

/-- The `for chunk in full_msg.chunks(..)` loop body of `write_packet`:
remembers the write-buffer offset of the header it writes, writes a header
with status `NORMAL` and `length = chunk.len()`, then the chunk bytes, and
increments the packet id with wraparound mod 256. Returns the final write
buffer and the offset of the last header written (or the incoming
`header_offset` when there was no chunk). -/
def writeChunks (ty : PacketType) : Nat → List Nat → Nat → List (List Nat) → List Nat × Nat
  | _pid, wbuf, header_offset, [] => (wbuf, header_offset)
  | pid, wbuf, _header_offset, c :: cs =>
      writeChunks ty ((pid + 1) % 256)
        (wbuf ++
          encodePacketHeader
            { type := ty, status := NORMAL, length := c.length
            , server_process_id := 0, packet_id := pid } ++ c)
        wbuf.length cs

/-- `MssqlStream::write_packet` (stream.rs lines 69–98) as a transformation of
the outbound write buffer: chunk the payload into pieces of
`packet_size - PacketHeader::SIZE` bytes, write a NORMAL header plus chunk for
each (packet ids starting at 1), then patch the last header's status to
`END_OF_MESSAGE` at the remembered offset (which starts at 0). -/
def write_packet (packet_size : Nat) (wbuf : List Nat) (ty : PacketType)
    (payload : List Nat) : List Nat :=
  let chunk_size := packet_size - PacketHeader.SIZE
  let r := writeChunks ty 1 wbuf 0 (chunks chunk_size payload)
  update_status r.1 r.2 END_OF_MESSAGE

/-- The packet-reassembly loop of `MssqlStream::recv_packet` (stream.rs lines
116–126): read `header.length` payload bytes, stop when the current header
carries END_OF_MESSAGE, otherwise decode the next header and continue. Fuel
bounds the number of packets read; `none` = out of fuel. -/
def recvPacketLoop :
    Nat → PacketHeader → List Nat → List Nat →
    Option (Except DriverError (PacketHeader × List Nat) × List Nat)
  | 0, _, _, _ => none
  | f + 1, header, payload, stream =>
      if stream.length < header.length then some (.error .transport, stream)
      else
        let payload' := payload ++ stream.take header.length
        let stream' := stream.drop header.length
        if header.status &&& END_OF_MESSAGE ≠ 0 then some (.ok (header, payload'), stream')
        else
          match decodePacketHeader stream' with
          | .error e => some (.error e, stream')
          | .ok (h', rest) => recvPacketLoop f h' payload' rest

/-- `MssqlStream::recv_packet` (stream.rs lines 102–129) over an inbound byte
stream: read one header, fail with a protocol error if its type is not
`TabularResult`, otherwise reassemble the message payload across packets until
END_OF_MESSAGE. Returns the result together with the unconsumed remainder of
the stream. -/
def recv_packet (fuel : Nat) (stream : List Nat) :
    Option (Except DriverError (PacketHeader × List Nat) × List Nat) :=
  match decodePacketHeader stream with
  | .error e => some (.error e, stream)
  | .ok (header, rest) =>
      if header.type = PacketType.tabularResult then recvPacketLoop fuel header [] rest
      else
        some (.error (.protocol ("received unexpected packet: " ++ packetTypeName header.type)),
              rest)

/-! ## Message layer

The token decoders (`MessageType::get`, `EnvChange::get`, `Done::get`, …) live
in `sqlx-core/src/mssql/protocol/*`, which is not among the sources under
verification. Modelled from the spec: a reassembled message payload "is parsed
as a sequence of tagged tokens", each tag determining the token's own
encoding, so a payload is embedded as the list of its decoded tokens and the
two getters become peeking/popping the head of that list. -/

/-- Modelled from the spec: the decoded `EnvChange` sub-token. `beginTransaction`
carries the new transaction descriptor, the packet-size change carries the new
size "as a decimal ASCII string, not a binary integer"; all other sub-types are
decoded and discarded by `recv_message`, so they are a single constructor. -/
inductive EnvChange
  | beginTransaction (descriptor : Nat)
  | commitTransaction
  | rollbackTransaction
  | packetSize (size : String)
  | otherChange
deriving DecidableEq

/-- Modelled from the spec: one decoded message token of a payload, tagged as
in `MessageType`. Done-family tokens carry their status bit field; the server
error token carries number/severity/message; `colMetaData` carries the new
column descriptors (opaque here) and the name→index pairs it installs. -/
inductive Token
  | envChange (e : EnvChange)
  | info
  | row (nbc : Bool)
  | loginAck
  | returnStatus
  | returnValue
  | done (status : Nat)
  | doneInProc (status : Nat)
  | doneProc (status : Nat)
  | order
  | errorToken (number : Nat) (severity : Nat) (message : String)
  | colMetaData (columns : List Nat) (column_names : List (String × Nat))
deriving DecidableEq

/-- The caller-visible `Message` variants returned by `recv_message`
(stream.rs lines 177–185). A row message records the nbc-variant flag and the
column snapshot it was decoded against (`Row::get(buf, nbc, &self.columns)`). -/
inductive Message
  | row (nbc : Bool) (columns : List Nat)
  | loginAck
  | returnStatus
  | returnValue
  | done (status : Nat)
  | doneInProc (status : Nat)
  | doneProc (status : Nat)
  | order
deriving DecidableEq

/-- The session state of `MssqlStream` (stream.rs lines 26–46). `columns` is a
list of opaque column descriptors (`Arc<Vec<MssqlColumn>>`), `column_names`
the name→index map as an association list (`Arc<HashMap<UStr, usize>>`);
`response` is the currently buffered `(PacketHeader, payload)` pair with the
payload token-decoded; `wbuf` is the outbound byte buffer of the underlying
`BufStream`; `incoming` models the transport side feeding `recv_packet`, as
the queue of token-decoded payloads it would deliver. -/
structure MssqlStream where
  packet_size : Nat
  pending_done_count : Nat
  transaction_descriptor : Nat
  transaction_depth : Nat
  response : Option (PacketHeader × List Token)
  columns : List Nat
  column_names : List (String × Nat)
  wbuf : List Nat
  incoming : List (PacketHeader × List Token)
deriving DecidableEq

/-- The session state built by `MssqlStream::connect` (stream.rs lines 56–65):
default column data, no buffered response, zero pending completions, zero
transaction descriptor and depth, packet size `DEFAULT_PACKET_SIZE`. -/
def connect : MssqlStream :=
  { packet_size := DEFAULT_PACKET_SIZE
  , pending_done_count := 0
  , transaction_descriptor := 0
  , transaction_depth := 0
  , response := none
  , columns := []
  , column_names := []
  , wbuf := []
  , incoming := [] }

/-- Embedding of Rust's `str::parse::<u16>()` as used on the EnvChange packet
size string: an optional leading `+`, then one or more ASCII digits, value at
most 65535; anything else fails. -/
def parseU16 (s : String) : Option Nat :=
  let cs := match s.toList with
    | '+' :: rest => rest
    | cs => cs
  if cs = [] then none
  else if cs.all (fun c => c.isDigit) then
    let n := cs.foldl (fun a c => a * 10 + (c.toNat - 48)) 0
    if n ≤ 65535 then some n else none
  else none

/-- `MssqlStream::handle_done` (stream.rs lines 212–214):
`self.pending_done_count -= 1;` on the unsigned counter. `none` embeds the
Rust panic on underflow when the counter is already 0 (with overflow checks
off the subtraction would instead wrap, equally violating the counter). -/
def handle_done (c : MssqlStream) : Option MssqlStream :=
  if c.pending_done_count = 0 then none
  else some { c with pending_done_count := c.pending_done_count - 1 }

/-- `MssqlStream::handle_error` (stream.rs lines 216–219): convert a decoded
server error into a driver-level database error result; the session state is
returned untouched. -/
def handle_error (c : MssqlStream) (number severity : Nat) (message : String) :
    MssqlStream × Except DriverError Message :=
  (c, .error (.database number severity message))

/-- `MssqlStream::recv_message` (stream.rs lines 133–210). Outer loop: refill
`response` from the transport (`incoming`) when it is absent or exhausted.
Inner loop: pop the next token and dispatch — EnvChange mutates session state
(transaction descriptor, packet size) and continues; Info is discarded;
ColMetaData replaces the column data and continues; an Error token
short-circuits through `handle_error`; every other token is returned as a
`Message`. Fuel bounds the number of loop iterations; `none` = out of fuel. -/
def recv_message : Nat → MssqlStream → Option (MssqlStream × Except DriverError Message)
  | 0, _ => none
  | f + 1, c =>
    match c.response with
    | some (hdr, t :: ts) =>
      let c' := { c with response := some (hdr, ts) }
      match t with
      | .envChange e =>
        match e with
        | .beginTransaction d => recv_message f { c' with transaction_descriptor := d }
        | .commitTransaction => recv_message f { c' with transaction_descriptor := 0 }
        | .rollbackTransaction => recv_message f { c' with transaction_descriptor := 0 }
        | .packetSize s =>
          match parseU16 s with
          | some n => recv_message f { c' with packet_size := n }
          | none => some (c', .error (.protocol ("Failed to parse message size: " ++ s)))
        | .otherChange => recv_message f c'
      | .info => recv_message f c'
      | .row nbc => some (c', .ok (.row nbc c.columns))
      | .loginAck => some (c', .ok .loginAck)
      | .returnStatus => some (c', .ok .returnStatus)
      | .returnValue => some (c', .ok .returnValue)
      | .done st => some (c', .ok (.done st))
      | .doneInProc st => some (c', .ok (.doneInProc st))
      | .doneProc st => some (c', .ok (.doneProc st))
      | .order => some (c', .ok .order)
      | .errorToken n sev msg => some (handle_error c' n sev msg)
      | .colMetaData cols names =>
          recv_message f { c' with columns := cols, column_names := names }
    | _ =>
      match c.incoming with
      | [] => some (c, .error .transport)
      | p :: ps => recv_message f { c with response := some p, incoming := ps }

/-- The `while self.pending_done_count > 0` loop of
`MssqlStream::wait_until_ready` (stream.rs lines 226–235): receive a message;
on a Done or DoneProc whose status lacks `DONE_MORE`, call `handle_done`
(whose underflow panic surfaces as `DriverError.crash`); any other message —
including every DoneInProc — leaves the counter alone. `mf` is the fuel handed
to each `recv_message` call, the second argument the loop fuel. -/
def waitLoop (mf : Nat) : Nat → MssqlStream → Option (Except DriverError MssqlStream)
  | 0, _ => none
  | f + 1, c =>
    if c.pending_done_count = 0 then some (.ok c)
    else
      match recv_message mf c with
      | none => none
      | some (_, .error e) => some (.error e)
      | some (c', .ok m) =>
        match m with
        | .done st | .doneProc st =>
          if st &&& DONE_MORE = 0 then
            match handle_done c' with
            | none => some (.error .crash)
            | some c2 => waitLoop mf f c2
          else waitLoop mf f c'
        | _ => waitLoop mf f c'

/-- `MssqlStream::wait_until_ready` (stream.rs lines 221–238): flush the
outbound buffer (its bytes leave for the transport, which is outside the
model, so the buffer just empties), then run the completion-counting loop. -/
def wait_until_ready (mf f : Nat) (c : MssqlStream) : Option (Except DriverError MssqlStream) :=
  waitLoop mf f { c with wbuf := [] }

/-! ## Characterization of the write path

`write_packet` writes NORMAL headers and then patches the last one; the
following functions give the equivalent direct description of the bytes it
produces, proved below (`write_packet_eq_emit`) and used to state the framing
claims. -/

/-- The header written for chunk `c` of a packet of type `ty` with packet id
`pid` and status `st`. -/
def mkHeader (ty : PacketType) (st len pid : Nat) : PacketHeader :=
  { type := ty, status := st, length := len, server_process_id := 0, packet_id := pid }

/-- The raw bytes `writeChunks` appends: a NORMAL header followed by the chunk,
for each chunk, packet ids increasing mod 256. -/
def rawEmit (ty : PacketType) : Nat → List (List Nat) → List Nat
  | _, [] => []
  | pid, c :: cs =>
      encodePacketHeader (mkHeader ty NORMAL c.length pid) ++ c ++ rawEmit ty ((pid + 1) % 256) cs

/-- Byte offset of the last header inside `rawEmit ty pid cs` (for `cs ≠ []`). -/
def lastOff : List (List Nat) → Nat
  | [] => 0
  | [_] => 0
  | c :: cs => PacketHeader.SIZE + c.length + lastOff cs

/-- The bytes of a fully framed message: one header per chunk, status `NORMAL`
on all but the last, `END_OF_MESSAGE` on the last. -/
def emit (ty : PacketType) : Nat → List (List Nat) → List Nat
  | _, [] => []
  | pid, [c] => encodePacketHeader (mkHeader ty END_OF_MESSAGE c.length pid) ++ c
  | pid, c :: cs =>
      encodePacketHeader (mkHeader ty NORMAL c.length pid) ++ c ++ emit ty ((pid + 1) % 256) cs

/-- The sequence of headers framing a chunk list (same statuses as `emit`). -/
def emitHeaders (ty : PacketType) : Nat → List (List Nat) → List PacketHeader
  | _, [] => []
  | pid, [c] => [mkHeader ty END_OF_MESSAGE c.length pid]
  | pid, c :: cs => mkHeader ty NORMAL c.length pid :: emitHeaders ty ((pid + 1) % 256) cs

/-- The header of the last packet of a framed message. -/
def lastHeader (ty : PacketType) : Nat → List (List Nat) → PacketHeader
  | pid, [c] => mkHeader ty END_OF_MESSAGE c.length pid
  | pid, _ :: cs => lastHeader ty ((pid + 1) % 256) cs
  | pid, [] => mkHeader ty END_OF_MESSAGE 0 pid

/-! ## Helper lemmas -/

lemma set_append_add {α : Type} (l₁ l₂ : List α) (n : Nat) (v : α) :
    (l₁ ++ l₂).set (l₁.length + n) v = l₁ ++ l₂.set n v := by
  induction l₁ with
  | nil => simp
  | cons a l₁ ih => simpa [Nat.succ_add] using ih

lemma getD_append_add {α : Type} (l₁ l₂ : List α) (n : Nat) (d : α) :
    (l₁ ++ l₂).getD (l₁.length + n) d = l₂.getD n d := by
  induction l₁ with
  | nil => simp
  | cons a l₁ ih => simpa [Nat.succ_add] using ih

lemma encodePacketHeader_length (h : PacketHeader) : (encodePacketHeader h).length = 8 := rfl

lemma chunksFuel_join {n : Nat} (hn : 0 < n) :
    ∀ f l, l.length ≤ f → (chunksFuel n f l).flatten = l := by
  intro f
  induction f with
  | zero =>
    intro l hl
    have : l = [] := List.length_eq_zero.mp (Nat.le_zero.mp hl)
    simp [this, chunksFuel]
  | succ f ih =>
    intro l hl
    by_cases h : l = []
    · simp [h, chunksFuel]
    · have hlen : 0 < l.length := List.length_pos.mpr h
      have : (l.drop n).length ≤ f := by
        simp only [List.length_drop]
        omega
      simp [chunksFuel, h, ih (l.drop n) this]

lemma chunksFuel_ne_nil {n f : Nat} {l : List Nat} (hf : 0 < f) (hl : l ≠ []) :
    chunksFuel n f l ≠ [] := by
  cases f with
  | zero => omega
  | succ f => simp [chunksFuel, hl]

lemma chunksFuel_mem_length {n f : Nat} {l c : List Nat} (hc : c ∈ chunksFuel n f l) :
    c.length ≤ n := by
  induction f generalizing l with
  | zero => simp [chunksFuel] at hc
  | succ f ih =>
    by_cases h : l = []
    · simp [chunksFuel, h] at hc
    · rw [chunksFuel, if_neg h] at hc
      rcases List.mem_cons.mp hc with h' | h'
      · subst h'
        simpa using List.length_take_le n l
      · exact ih h'

lemma chunksFuel_length {n : Nat} (hn : 0 < n) :
    ∀ f l, l.length ≤ f → (chunksFuel n f l).length = (l.length + n - 1) / n := by
  intro f
  induction f with
  | zero =>
    intro l hl
    have h0 : l = [] := List.length_eq_zero.mp (Nat.le_zero.mp hl)
    subst h0
    have hd : (0 + n - 1) / n = 0 := Nat.div_eq_of_lt (by omega)
    simpa [chunksFuel] using hd.symm
  | succ f ih =>
    intro l hl
    by_cases h : l = []
    · subst h
      have hd : (0 + n - 1) / n = 0 := Nat.div_eq_of_lt (by omega)
      simpa [chunksFuel] using hd.symm
    · have hlen : 0 < l.length := List.length_pos.mpr h
      have hdrop : (l.drop n).length ≤ f := by
        simp only [List.length_drop]
        omega
      rw [chunksFuel, if_neg h]
      simp only [List.length_cons, ih (l.drop n) hdrop, List.length_drop]
      rcases Nat.lt_or_ge l.length n with hsmall | hbig
      · have h1 : l.length - n = 0 := by omega
        have h2 : (0 + n - 1) / n = 0 := Nat.div_eq_of_lt (by omega)
        have h3 : (l.length + n - 1) / n = 1 := Nat.div_eq_of_lt_le (by omega) (by omega)
        rw [h1, h2, h3]
      · have h1 : l.length - n + n - 1 + n = l.length + n - 1 := by omega
        rw [← h1, Nat.add_div_right _ hn]

lemma chunks_join {n : Nat} (hn : 0 < n) (l : List Nat) : (chunks n l).flatten = l :=
  chunksFuel_join hn l.length l le_rfl

lemma chunks_ne_nil {n : Nat} {l : List Nat} (hl : l ≠ []) : chunks n l ≠ [] :=
  chunksFuel_ne_nil (List.length_pos.mpr hl) hl

lemma chunks_mem_length {n : Nat} {l c : List Nat} (hc : c ∈ chunks n l) : c.length ≤ n :=
  chunksFuel_mem_length hc

lemma chunks_length {n : Nat} (hn : 0 < n) (l : List Nat) :
    (chunks n l).length = (l.length + n - 1) / n :=
  chunksFuel_length hn l.length l le_rfl

lemma writeChunks_eq (ty : PacketType) :
    ∀ (cs : List (List Nat)) (pid : Nat) (wbuf : List Nat) (hoff : Nat), cs ≠ [] →
      writeChunks ty pid wbuf hoff cs = (wbuf ++ rawEmit ty pid cs, wbuf.length + lastOff cs) := by
  intro cs
  induction cs with
  | nil => intro _ _ _ h; exact absurd rfl h
  | cons c cs ih =>
    intro pid wbuf hoff _
    cases cs with
    | nil => simp [writeChunks, rawEmit, lastOff, mkHeader]
    | cons c₂ cs' =>
      rw [writeChunks, ih ((pid + 1) % 256) _ wbuf.length (by simp)]
      simp only [Prod.mk.injEq]
      constructor
      · simp [rawEmit, mkHeader]
      · have hlen :
            (wbuf ++
              encodePacketHeader
                { type := ty, status := NORMAL, length := c.length
                , server_process_id := 0, packet_id := pid } ++ c).length
              = wbuf.length + (PacketHeader.SIZE + c.length) := by
          simp [encodePacketHeader, PacketHeader.SIZE]
          omega
        rw [hlen]
        simp only [lastOff]
        omega

lemma emit_cons (ty : PacketType) (pid : Nat) (c : List Nat) (cs : List (List Nat)) :
    emit ty pid (c :: cs) =
      encodePacketHeader
          (mkHeader ty (if cs = [] then END_OF_MESSAGE else NORMAL) c.length pid) ++
        (c ++ emit ty ((pid + 1) % 256) cs) := by
  cases cs <;> simp [emit]

lemma emitHeaders_cons (ty : PacketType) (pid : Nat) (c : List Nat) (cs : List (List Nat)) :
    emitHeaders ty pid (c :: cs) =
      mkHeader ty (if cs = [] then END_OF_MESSAGE else NORMAL) c.length pid ::
        emitHeaders ty ((pid + 1) % 256) cs := by
  cases cs <;> simp [emitHeaders]

lemma update_status_rawEmit (ty : PacketType) :
    ∀ (cs : List (List Nat)) (pid : Nat), cs ≠ [] →
      update_status (rawEmit ty pid cs) (lastOff cs) END_OF_MESSAGE = emit ty pid cs := by
  intro cs
  induction cs with
  | nil => intro _ h; exact absurd rfl h
  | cons c cs ih =>
    intro pid _
    cases cs with
    | nil =>
      simp [rawEmit, emit, update_status, lastOff, mkHeader, encodePacketHeader,
        NORMAL, END_OF_MESSAGE]
    | cons c₂ cs' =>
      have hoff :
          lastOff (c :: c₂ :: cs') + 1 =
            (encodePacketHeader (mkHeader ty NORMAL c.length pid) ++ c).length +
              (lastOff (c₂ :: cs') + 1) := by
        simp [lastOff, encodePacketHeader, PacketHeader.SIZE]
        omega
      have hraw :
          rawEmit ty pid (c :: c₂ :: cs') =
            (encodePacketHeader (mkHeader ty NORMAL c.length pid) ++ c) ++
              rawEmit ty ((pid + 1) % 256) (c₂ :: cs') := by
        simp [rawEmit]
      rw [update_status, hraw, hoff, set_append_add, getD_append_add]
      rw [← update_status, ih ((pid + 1) % 256) (by simp)]
      simp [emit_cons, mkHeader]

lemma write_packet_eq_emit {packet_size : Nat} (ty : PacketType) (payload : List Nat)
    (hp : payload ≠ []) :
    write_packet packet_size [] ty payload =
      emit ty 1 (chunks (packet_size - PacketHeader.SIZE) payload) := by
  have hcs : chunks (packet_size - PacketHeader.SIZE) payload ≠ [] := chunks_ne_nil hp
  rw [write_packet, writeChunks_eq ty _ 1 [] 0 hcs]
  simpa using update_status_rawEmit ty _ 1 hcs

lemma decodePacketType_byte (ty : PacketType) :
    decodePacketType (packetTypeByte ty) = some ty := by
  cases ty <;> rfl

lemma decode_encode (h : PacketHeader) (rest : List Nat) (hst : h.status < 256)
    (hlen : h.length + PacketHeader.SIZE < 65536) (hpid : h.packet_id < 256)
    (hspid : h.server_process_id < 65536) :
    decodePacketHeader (encodePacketHeader h ++ rest) = .ok (h, rest) := by
  obtain ⟨ty, st, len, spid, pid⟩ := h
  simp only [PacketHeader.SIZE] at hlen hpid hspid hst
  simp only [encodePacketHeader, PacketHeader.SIZE, List.cons_append, List.nil_append,
    decodePacketHeader, decodePacketType_byte]
  have hst' : st % 256 = st := Nat.mod_eq_of_lt hst
  have hpid' : pid % 256 = pid := Nat.mod_eq_of_lt hpid
  have hlen' : 256 * ((len + 8) / 256 % 256) + (len + 8) % 256 - 8 = len := by omega
  have hspid' : 256 * (spid / 256 % 256) + spid % 256 = spid := by omega
  rw [hst', hpid', hlen', hspid']

lemma recvLoop_emit (ty : PacketType) :
    ∀ (cs' : List (List Nat)) (c : List Nat) (f pid : Nat) (acc rest : List Nat),
      (∀ x ∈ c :: cs', x.length + PacketHeader.SIZE < 65536) → pid < 256 →
      cs'.length < f →
      recvPacketLoop f (mkHeader ty (if cs' = [] then END_OF_MESSAGE else NORMAL) c.length pid)
          acc (c ++ (emit ty ((pid + 1) % 256) cs' ++ rest)) =
        some (.ok (lastHeader ty pid (c :: cs'), acc ++ (c :: cs').flatten), rest) := by
  intro cs'
  induction cs' with
  | nil =>
    intro c f pid acc rest _ _ hf
    cases f with
    | zero => omega
    | succ f =>
      rw [recvPacketLoop]
      rw [if_neg (by simp [mkHeader])]
      rw [if_pos (by simp [mkHeader, END_OF_MESSAGE])]
      simp [mkHeader, emit, lastHeader, List.take_left', List.drop_left']
  | cons c₂ cs'' ih =>
    intro c f pid acc rest hb hpid hf
    cases f with
    | zero => simp at hf
    | succ f =>
      rw [if_neg (by simp)]
      rw [recvPacketLoop]
      rw [if_neg (by simp [mkHeader])]
      rw [if_neg (by simp [mkHeader, NORMAL, END_OF_MESSAGE])]
      have htake :
          (c ++ (emit ty ((pid + 1) % 256) (c₂ :: cs'') ++ rest)).take
              (mkHeader ty NORMAL c.length pid).length = c := by
        simp [mkHeader, List.take_left']
      have hdrop :
          (c ++ (emit ty ((pid + 1) % 256) (c₂ :: cs'') ++ rest)).drop
              (mkHeader ty NORMAL c.length pid).length =
            emit ty ((pid + 1) % 256) (c₂ :: cs'') ++ rest := by
        simp [mkHeader, List.drop_left']
      rw [htake, hdrop]
      have hsplit :
          emit ty ((pid + 1) % 256) (c₂ :: cs'') ++ rest =
            encodePacketHeader
                (mkHeader ty (if cs'' = [] then END_OF_MESSAGE else NORMAL) c₂.length
                  ((pid + 1) % 256)) ++
              (c₂ ++ (emit ty (((pid + 1) % 256 + 1) % 256) cs'' ++ rest)) := by
        rw [emit_cons]
        simp
      have hdec :
          decodePacketHeader (emit ty ((pid + 1) % 256) (c₂ :: cs'') ++ rest) =
            .ok (mkHeader ty (if cs'' = [] then END_OF_MESSAGE else NORMAL) c₂.length
                  ((pid + 1) % 256),
                 c₂ ++ (emit ty (((pid + 1) % 256 + 1) % 256) cs'' ++ rest)) := by
        rw [hsplit]
        apply decode_encode
        · simp only [mkHeader]
          split <;> simp [END_OF_MESSAGE, NORMAL]
        · exact hb c₂ (by simp)
        · simp only [mkHeader]
          exact Nat.mod_lt _ (by omega)
        · simp [mkHeader]
      rw [hdec]
      simp only [ih c₂ f ((pid + 1) % 256) (acc ++ c) rest
        (by intro x hx; exact hb x (List.mem_cons_of_mem _ hx))
        (Nat.mod_lt _ (by omega)) (by simpa using hf)]
      simp [lastHeader]

lemma chunks_fit {P : Nat} {payload c : List Nat} (hP : P ≤ 65535)
    (hc : c ∈ chunks (P - PacketHeader.SIZE) payload) :
    c.length + PacketHeader.SIZE < 65536 := by
  have h1 := chunks_mem_length hc
  simp only [PacketHeader.SIZE] at *
  omega

lemma recv_packet_write_packet (payload : List Nat) (P f : Nat) (hp : payload ≠ [])
    (hP8 : PacketHeader.SIZE < P) (hP : P ≤ 65535)
    (hf : (chunks (P - PacketHeader.SIZE) payload).length ≤ f) :
    recv_packet f (write_packet P [] .tabularResult payload) =
      some (.ok (lastHeader .tabularResult 1 (chunks (P - PacketHeader.SIZE) payload),
                 payload), []) := by
  have hn : 0 < P - PacketHeader.SIZE := by
    simp only [PacketHeader.SIZE] at *
    omega
  have hjoin : (chunks (P - PacketHeader.SIZE) payload).flatten = payload :=
    chunks_join hn payload
  rw [write_packet_eq_emit .tabularResult payload hp]
  rcases hcs : chunks (P - PacketHeader.SIZE) payload with _ | ⟨c, cs'⟩
  · exact absurd hcs (chunks_ne_nil hp)
  · have hb : ∀ x ∈ c :: cs', x.length + PacketHeader.SIZE < 65536 := by
      intro x hx
      exact chunks_fit hP (hcs ▸ hx)
    have hsplit :
        emit .tabularResult 1 (c :: cs') =
          encodePacketHeader
              (mkHeader .tabularResult (if cs' = [] then END_OF_MESSAGE else NORMAL) c.length
                1) ++
            (c ++ (emit .tabularResult ((1 + 1) % 256) cs' ++ [])) := by
      rw [emit_cons]
      simp
    have hdec :
        decodePacketHeader (emit .tabularResult 1 (c :: cs')) =
          .ok (mkHeader .tabularResult (if cs' = [] then END_OF_MESSAGE else NORMAL) c.length 1,
               c ++ (emit .tabularResult ((1 + 1) % 256) cs' ++ [])) := by
      rw [hsplit]
      apply decode_encode
      · simp only [mkHeader]
        split <;> simp [END_OF_MESSAGE, NORMAL]
      · exact hb c (by simp)
      · simp [mkHeader]
      · simp [mkHeader]
    rw [recv_packet, hdec]
    dsimp only
    rw [if_pos (show (mkHeader PacketType.tabularResult
        (if cs' = [] then END_OF_MESSAGE else NORMAL) c.length 1).type =
          PacketType.tabularResult by simp [mkHeader])]
    rw [recvLoop_emit .tabularResult cs' c f 1 [] [] hb (by omega)
      (by rw [hcs] at hf; simpa using hf)]
    rw [hcs] at hjoin
    simp [hjoin]

lemma emitHeaders_length (ty : PacketType) :
    ∀ (cs : List (List Nat)) (pid : Nat), (emitHeaders ty pid cs).length = cs.length := by
  intro cs
  induction cs with
  | nil => intro pid; rfl
  | cons c cs ih =>
    intro pid
    rw [emitHeaders_cons]
    simp [ih]

lemma emitHeaders_statuses (ty : PacketType) :
    ∀ (cs : List (List Nat)) (pid : Nat), cs ≠ [] →
      (emitHeaders ty pid cs).map PacketHeader.status =
        List.replicate (cs.length - 1) NORMAL ++ [END_OF_MESSAGE] := by
  intro cs
  induction cs with
  | nil => intro _ h; exact absurd rfl h
  | cons c cs ih =>
    intro pid _
    cases cs with
    | nil => simp [emitHeaders, mkHeader]
    | cons c₂ cs' =>
      rw [emitHeaders_cons, if_neg (by simp)]
      simp only [List.map_cons, ih ((pid + 1) % 256) (by simp), mkHeader]
      simp [List.replicate_succ]

lemma emit_eq_headers (ty : PacketType) :
    ∀ (cs : List (List Nat)) (pid : Nat),
      emit ty pid cs =
        (((emitHeaders ty pid cs).zip cs).map
          (fun p => encodePacketHeader p.1 ++ p.2)).flatten := by
  intro cs
  induction cs with
  | nil => intro pid; rfl
  | cons c cs ih =>
    intro pid
    rw [emit_cons, emitHeaders_cons]
    simp [ih ((pid + 1) % 256)]

/-! ## Claim theorems -/

/-- C1: the claim says an empty payload still produces exactly one packet with
END_OF_MESSAGE set and length equal to the header size. The code does not:
`full_msg.chunks(..)` over an empty payload yields no chunks, so the loop of
`write_packet` writes nothing, and the final `update_status` call then patches
the stale initial offset 0 — on an empty outbound buffer nothing at all is
appended (second conjunct), and in general the call degenerates to patching
byte 1 of whatever the buffer already held (first conjunct), corrupting a
previously buffered packet instead of emitting a new one. -/
theorem c1_empty_payload_writes_no_packet :
    (∀ (packet_size : Nat) (wbuf : List Nat) (ty : PacketType),
        write_packet packet_size wbuf ty [] = update_status wbuf 0 END_OF_MESSAGE) ∧
      write_packet DEFAULT_PACKET_SIZE [] .tabularResult [] = [] ∧
      (write_packet DEFAULT_PACKET_SIZE [] .tabularResult []).length ≠ PacketHeader.SIZE := by
  refine ⟨fun _ _ _ => rfl, rfl, by decide⟩

/-- C2, counterexample: the claim's packet-count formula
`ceil((L + header_size)/P)` is wrong for the code. With payload length
L = 17 and packet size P = 16 the code chunks into pieces of
P − header_size = 8 bytes, producing 3 packets (41 = 17 + 3·8 bytes in the
outbound buffer), while the formula gives `ceil(25/16) = 2`. -/
theorem c2_packet_count_formula_counterexample :
    write_packet 16 [] .tabularResult (List.replicate 17 1) =
        emit .tabularResult 1 (chunks 8 (List.replicate 17 1)) ∧
      (chunks 8 (List.replicate 17 1)).length = 3 ∧
      (write_packet 16 [] .tabularResult (List.replicate 17 1)).length =
        17 + 3 * PacketHeader.SIZE ∧
      (17 + PacketHeader.SIZE + 16 - 1) / 16 = 2 := by
  refine ⟨by rfl, by rfl, by rfl, by rfl⟩

/-- C2, amended: for every nonempty payload and negotiated packet size
`8 < P ≤ 65535`, `write_packet` frames the payload as one header per chunk of
`P − header_size` bytes (conjuncts 1–2), the number of packets is
`ceil(L / (P − header_size))` — not `ceil((L + header_size)/P)` as claimed —
(conjunct 3), every header carries status NORMAL except the last, which
carries END_OF_MESSAGE (conjunct 4), and re-reading the written bytes with
`recv_packet` (a loopback, with the TabularResult packet type) reproduces the
original payload byte-for-byte, consuming the whole stream (conjunct 5). -/
theorem c2_chunking_round_trip (payload : List Nat) (P f : Nat) (hp : payload ≠ [])
    (hP8 : PacketHeader.SIZE < P) (hP : P ≤ 65535)
    (hf : (chunks (P - PacketHeader.SIZE) payload).length ≤ f) :
    write_packet P [] .tabularResult payload =
        emit .tabularResult 1 (chunks (P - PacketHeader.SIZE) payload) ∧
      emit .tabularResult 1 (chunks (P - PacketHeader.SIZE) payload) =
        (((emitHeaders .tabularResult 1 (chunks (P - PacketHeader.SIZE) payload)).zip
            (chunks (P - PacketHeader.SIZE) payload)).map
          (fun p => encodePacketHeader p.1 ++ p.2)).flatten ∧
      (emitHeaders .tabularResult 1 (chunks (P - PacketHeader.SIZE) payload)).length =
        (payload.length + (P - PacketHeader.SIZE) - 1) / (P - PacketHeader.SIZE) ∧
      (emitHeaders .tabularResult 1 (chunks (P - PacketHeader.SIZE) payload)).map
          PacketHeader.status =
        List.replicate ((chunks (P - PacketHeader.SIZE) payload).length - 1) NORMAL ++
          [END_OF_MESSAGE] ∧
      recv_packet f (write_packet P [] .tabularResult payload) =
        some (.ok (lastHeader .tabularResult 1 (chunks (P - PacketHeader.SIZE) payload),
                   payload), []) := by
  have hn : 0 < P - PacketHeader.SIZE := by
    simp only [PacketHeader.SIZE] at *
    omega
  refine ⟨write_packet_eq_emit .tabularResult payload hp, emit_eq_headers _ _ _, ?_, ?_, ?_⟩
  · rw [emitHeaders_length, chunks_length hn]
  · exact emitHeaders_statuses _ _ _ (chunks_ne_nil hp)
  · exact recv_packet_write_packet payload P f hp hP8 hP hf

/-- C2 witness: the round-trip conjunct of `c2_chunking_round_trip` evaluated
at payload `[7, 7, 7]` and packet size 10 (two chunks of two and one byte). -/
theorem c2_chunking_round_trip_witness :
    recv_packet 2 (write_packet 10 [] .tabularResult [7, 7, 7]) =
      some (.ok (lastHeader .tabularResult 1 (chunks (10 - PacketHeader.SIZE) [7, 7, 7]),
                 [7, 7, 7]), []) :=
  (c2_chunking_round_trip [7, 7, 7] 10 2 (by decide) (by decide) (by decide)
    (by decide)).2.2.2.2

/-- C3: the wire length field counts the whole packet including the 8-byte
header. Conjunct 1: `write_packet` frames each chunk with the header encoding
below. Conjunct 2: in the encoded header of any chunk the big-endian 16-bit
field at bytes 2–3 is `length + header_size`, i.e. chunk length plus header
size for the headers `write_packet` builds. Conjunct 3: every chunk produced
with packet size `P ≤ 65535` keeps that field within 16 bits. Conjunct 4:
decoding undoes the addition, recovering `length`. Conjunct 5: per packet, the
reassembly loop of `recv_packet` consumes exactly `length` payload bytes —
that is, wire length minus header size. -/
theorem c3_length_field_counts_whole_packet :
    (∀ (P : Nat) (ty : PacketType) (payload : List Nat), payload ≠ [] →
        write_packet P [] ty payload = emit ty 1 (chunks (P - PacketHeader.SIZE) payload)) ∧
      (∀ h : PacketHeader, h.length + PacketHeader.SIZE ≤ 65535 →
        256 * (encodePacketHeader h).getD 2 0 + (encodePacketHeader h).getD 3 0 =
          h.length + PacketHeader.SIZE) ∧
      (∀ (P : Nat) (payload c : List Nat), P ≤ 65535 →
        c ∈ chunks (P - PacketHeader.SIZE) payload → c.length + PacketHeader.SIZE ≤ 65535) ∧
      (∀ (h : PacketHeader) (rest : List Nat), h.status < 256 →
        h.length + PacketHeader.SIZE < 65536 → h.packet_id < 256 →
        h.server_process_id < 65536 →
        decodePacketHeader (encodePacketHeader h ++ rest) = .ok (h, rest)) ∧
      (∀ (f : Nat) (h : PacketHeader) (acc body rest : List Nat),
        h.length = body.length → h.status &&& END_OF_MESSAGE ≠ 0 →
        recvPacketLoop (f + 1) h acc (body ++ rest) = some (.ok (h, acc ++ body), rest)) := by
  refine ⟨fun P ty payload hp => write_packet_eq_emit ty payload hp, ?_, ?_, decode_encode, ?_⟩
  · intro h hb
    simp only [encodePacketHeader, PacketHeader.SIZE] at *
    simp only [List.getD]
    simp
    omega
  · intro P payload c hP hc
    have := chunks_fit hP hc
    omega
  · intro f h acc body rest hlen hst
    rw [recvPacketLoop]
    rw [if_neg (by simp [hlen])]
    rw [if_pos hst]
    simp [hlen, List.take_left', List.drop_left']

/-- C3 witness: one step of the reassembly loop at a concrete two-byte packet
with END_OF_MESSAGE set consumes exactly the two payload bytes and leaves the
trailing byte unread. -/
theorem c3_length_field_witness :
    recvPacketLoop 1 (mkHeader .tabularResult 1 2 1) [] ([9, 9] ++ [5]) =
      some (.ok (mkHeader .tabularResult 1 2 1, [] ++ [9, 9]), [5]) :=
  c3_length_field_counts_whole_packet.2.2.2.2 0 (mkHeader .tabularResult 1 2 1) [] [9, 9] [5]
    rfl (by decide)

/-! ## Message-layer lemmas -/

lemma recv_message_pending :
    ∀ (mf : Nat) (c c' : MssqlStream) (r : Except DriverError Message),
      recv_message mf c = some (c', r) → c'.pending_done_count = c.pending_done_count := by
  intro mf
  induction mf with
  | zero => intro c c' r h; exact absurd h (by simp [recv_message])
  | succ mf ih =>
    intro c c' r h
    rw [recv_message] at h
    split at h
    · repeat' split at h
      all_goals
        first
        | (simpa using ih _ _ _ h)
        | (simp only [handle_error, Option.some.injEq, Prod.mk.injEq] at h
           obtain ⟨h1, h2⟩ := h
           subst h1
           simp)
    · split at h
      · simp only [Option.some.injEq, Prod.mk.injEq] at h
        obtain ⟨h1, h2⟩ := h
        subst h1
        rfl
      · simpa using ih _ _ _ h

lemma recv_message_no_crash :
    ∀ (mf : Nat) (c c' : MssqlStream) (e : DriverError),
      recv_message mf c = some (c', .error e) → e ≠ .crash := by
  intro mf
  induction mf with
  | zero => intro c c' e h; exact absurd h (by simp [recv_message])
  | succ mf ih =>
    intro c c' e h
    rw [recv_message] at h
    split at h
    · repeat' split at h
      all_goals
        first
        | (exact ih _ _ _ h)
        | (simp only [Option.some.injEq, Prod.mk.injEq] at h
           exact Except.noConfusion h.2)
        | (simp only [handle_error, Option.some.injEq, Prod.mk.injEq,
             Except.error.injEq] at h
           obtain ⟨h1, h2⟩ := h
           subst h2
           simp)
    · split at h
      · simp only [Option.some.injEq, Prod.mk.injEq, Except.error.injEq] at h
        obtain ⟨h1, h2⟩ := h
        subst h2
        simp
      · exact ih _ _ _ h

/-- Is a token one of the EnvChange sub-types that write
`transaction_descriptor`? -/
def tdToken : Token → Bool
  | .envChange (.beginTransaction _) => true
  | .envChange .commitTransaction => true
  | .envChange .rollbackTransaction => true
  | _ => false

/-- Tokens still buffered in the current response. -/
def bufTokens (c : MssqlStream) : List Token :=
  match c.response with
  | none => []
  | some (_, ts) => ts

/-- No transaction-state EnvChange token is available anywhere to the stream
(neither buffered nor deliverable by the transport). -/
def noTdTokens (c : MssqlStream) : Prop :=
  (∀ t ∈ bufTokens c, tdToken t = false) ∧
    ∀ p ∈ c.incoming, ∀ t ∈ p.2, tdToken t = false

lemma recv_message_td :
    ∀ (mf : Nat) (c : MssqlStream), noTdTokens c →
      ∀ (c' : MssqlStream) (r : Except DriverError Message),
        recv_message mf c = some (c', r) →
        c'.transaction_descriptor = c.transaction_descriptor := by
  intro mf
  induction mf with
  | zero => intro c _ c' r h; exact absurd h (by simp [recv_message])
  | succ mf ih =>
    intro c hno c' r h
    rw [recv_message] at h
    split at h
    · rename_i hdr t ts heq
      have hhead : tdToken t = false := by
        refine hno.1 t ?_
        simp [bufTokens, heq]
      have htail : ∀ x ∈ ts, tdToken x = false := by
        intro x hx
        refine hno.1 x ?_
        simp [bufTokens, heq, hx]
      repeat' split at h
      all_goals
        first
        | (simp only [tdToken] at hhead; exact Bool.noConfusion hhead)
        | (refine (ih _ ⟨?_, ?_⟩ _ _ h).trans (by simp) <;>
            [(intro x hx; exact htail x (by simpa [bufTokens] using hx));
             (intro p hp x hx; exact hno.2 p (by simpa using hp) x hx)])
        | (simp only [handle_error, Option.some.injEq, Prod.mk.injEq] at h
           obtain ⟨h1, h2⟩ := h
           subst h1
           simp)
    · rename_i hresp
      split at h
      · simp only [Option.some.injEq, Prod.mk.injEq] at h
        obtain ⟨h1, h2⟩ := h
        subst h1
        rfl
      · rename_i p ps hin
        refine (ih _ ⟨?_, ?_⟩ _ _ h).trans (by simp)
        · intro x hx
          exact hno.2 p (by simp [hin]) x (by simpa [bufTokens] using hx)
        · intro q hq x hx
          exact hno.2 q (by simp [hin, hq]) x hx

lemma waitLoop_ok_pending :
    ∀ (mf f : Nat) (c c' : MssqlStream),
      waitLoop mf f c = some (.ok c') → c'.pending_done_count = 0 := by
  intro mf f
  induction f with
  | zero => intro c c' h; exact absurd h (by simp [waitLoop])
  | succ f ih =>
    intro c c' h
    rw [waitLoop] at h
    split at h
    · rename_i hpend
      simp only [Option.some.injEq, Except.ok.injEq] at h
      subst h
      exact hpend
    · repeat' split at h
      all_goals
        first
        | (exact ih _ _ h)
        | (simp at h)

lemma waitLoop_no_crash :
    ∀ (mf f : Nat) (c : MssqlStream) (r : Except DriverError MssqlStream),
      waitLoop mf f c = some r → r ≠ .error .crash := by
  intro mf f
  induction f with
  | zero => intro c r h; exact absurd h (by simp [waitLoop])
  | succ f ih =>
    intro c r h
    rw [waitLoop] at h
    split at h
    · simp only [Option.some.injEq] at h
      subst h
      simp
    · rename_i hpend
      split at h
      · exact absurd h (by simp)
      · rename_i x e heq
        simp only [Option.some.injEq] at h
        subst h
        intro hcr
        simp only [Except.error.injEq] at hcr
        exact recv_message_no_crash _ _ _ _ heq hcr
      · rename_i c₁ m heq
        split at h
        · split at h
          · split at h
            · rename_i heqd
              exfalso
              have hp1 := recv_message_pending _ _ _ _ heq
              rcases Nat.eq_zero_or_pos c₁.pending_done_count with hz | hpos
              · exact hpend (by omega)
              · rw [handle_done, if_neg (by omega)] at heqd
                exact Option.noConfusion heqd
            · exact ih _ _ h
          · exact ih _ _ h
        · split at h
          · split at h
            · rename_i heqd
              exfalso
              have hp1 := recv_message_pending _ _ _ _ heq
              rcases Nat.eq_zero_or_pos c₁.pending_done_count with hz | hpos
              · exact hpend (by omega)
              · rw [handle_done, if_neg (by omega)] at heqd
                exact Option.noConfusion heqd
            · exact ih _ _ h
          · exact ih _ _ h
        · exact ih _ _ h

/-- A header for concrete runs (last packet of a TabularResult message). -/
def sampleHeader : PacketHeader := mkHeader .tabularResult END_OF_MESSAGE 0 1

/-- Concrete start state for the completion-counting run of C4: one pending
completion, and the transport delivering DoneInProc(more), DoneInProc(more),
Done(not more) in a single payload. -/
def c4Start : MssqlStream :=
  { connect with
      pending_done_count := 1,
      incoming := [(sampleHeader, [.doneInProc DONE_MORE, .doneInProc DONE_MORE, .done 0])] }

/-- State after `wait_until_ready` has consumed all three messages of
`c4Start`: counter at zero, payload fully drained, nothing left inbound. -/
def c4Final : MssqlStream :=
  { connect with pending_done_count := 0, response := some (sampleHeader, []) }

/-- C4: `wait_until_ready` returns Ok only once `pending_done_count` is zero
(conjunct 1); a loop iteration never decrements on DoneInProc (conjunct 2),
nor on Done/DoneProc whose status has the DONE_MORE bit (conjuncts 3–4), and
decrements by exactly one on Done/DoneProc without DONE_MORE (conjuncts 5–6);
on the stream DoneInProc(more), DoneInProc(more), Done(not more) with the
counter preset to 1 it consumes all three messages — leaving the buffered
payload and the transport empty — and ends with the counter at 0
(conjunct 7). -/
theorem c4_wait_until_ready_completion_counting :
    (∀ (mf f : Nat) (c c' : MssqlStream),
        waitLoop mf f c = some (.ok c') → c'.pending_done_count = 0) ∧
      (∀ (mf f : Nat) (c c₁ : MssqlStream) (st : Nat), c.pending_done_count ≠ 0 →
        recv_message mf c = some (c₁, .ok (.doneInProc st)) →
        waitLoop mf (f + 1) c = waitLoop mf f c₁) ∧
      (∀ (mf f : Nat) (c c₁ : MssqlStream) (st : Nat), c.pending_done_count ≠ 0 →
        recv_message mf c = some (c₁, .ok (.done st)) → st &&& DONE_MORE ≠ 0 →
        waitLoop mf (f + 1) c = waitLoop mf f c₁) ∧
      (∀ (mf f : Nat) (c c₁ : MssqlStream) (st : Nat), c.pending_done_count ≠ 0 →
        recv_message mf c = some (c₁, .ok (.doneProc st)) → st &&& DONE_MORE ≠ 0 →
        waitLoop mf (f + 1) c = waitLoop mf f c₁) ∧
      (∀ (mf f : Nat) (c c₁ : MssqlStream) (st : Nat), c.pending_done_count ≠ 0 →
        recv_message mf c = some (c₁, .ok (.done st)) → st &&& DONE_MORE = 0 →
        c₁.pending_done_count = c.pending_done_count ∧
          waitLoop mf (f + 1) c =
            waitLoop mf f { c₁ with pending_done_count := c₁.pending_done_count - 1 }) ∧
      (∀ (mf f : Nat) (c c₁ : MssqlStream) (st : Nat), c.pending_done_count ≠ 0 →
        recv_message mf c = some (c₁, .ok (.doneProc st)) → st &&& DONE_MORE = 0 →
        c₁.pending_done_count = c.pending_done_count ∧
          waitLoop mf (f + 1) c =
            waitLoop mf f { c₁ with pending_done_count := c₁.pending_done_count - 1 }) ∧
      wait_until_ready 4 4 c4Start = some (.ok c4Final) := by
  refine ⟨waitLoop_ok_pending, ?_, ?_, ?_, ?_, ?_, by decide⟩
  · intro mf f c c₁ st hp hr
    rw [waitLoop, if_neg hp, hr]
  · intro mf f c c₁ st hp hr hbit
    rw [waitLoop, if_neg hp, hr]
    dsimp only
    rw [if_neg hbit]
  · intro mf f c c₁ st hp hr hbit
    rw [waitLoop, if_neg hp, hr]
    dsimp only
    rw [if_neg hbit]
  · intro mf f c c₁ st hp hr hbit
    have hp1 := recv_message_pending _ _ _ _ hr
    refine ⟨hp1, ?_⟩
    rw [waitLoop, if_neg hp, hr]
    dsimp only
    rw [if_pos hbit, handle_done, if_neg (by omega)]
  · intro mf f c c₁ st hp hr hbit
    have hp1 := recv_message_pending _ _ _ _ hr
    refine ⟨hp1, ?_⟩
    rw [waitLoop, if_neg hp, hr]
    dsimp only
    rw [if_pos hbit, handle_done, if_neg (by omega)]

/-- C4 witness: conjunct 1 of `c4_wait_until_ready_completion_counting`
applied to the concrete run, whose loop hypothesis is discharged by
computation. -/
theorem c4_wait_until_ready_witness : c4Final.pending_done_count = 0 :=
  c4_wait_until_ready_completion_counting.1 4 4 { c4Start with wbuf := [] } c4Final (by decide)

/-- Start state for the C5 counterexample: the buffered payload holds a
packet-size EnvChange followed by a Done. -/
def c5Start : MssqlStream :=
  { connect with response := some (sampleHeader, [.envChange (.packetSize "512"), .done 0]) }

/-- State returned by `recv_message` on `c5Start`: the Done is surfaced, but
`packet_size` was rewritten by the transparently consumed EnvChange. -/
def c5End : MssqlStream :=
  { connect with packet_size := 512, response := some (sampleHeader, []) }

/-- C5, counterexample: an invocation of `recv_message` that returns a Done
message but does not leave the session state unchanged — the packet-size
EnvChange consumed earlier in the same call rewrites `packet_size` from 4096
to 512, so the claim as stated (every recv_message invocation returning a
Done-family message leaves packet_size etc. unchanged) is false. -/
theorem c5_done_return_state_change_counterexample :
    recv_message 2 c5Start = some (c5End, .ok (.done 0)) ∧
      c5Start.packet_size = 4096 ∧ c5End.packet_size = 512 :=
  ⟨by decide, rfl, rfl⟩

/-- C5, amended: `recv_message` never modifies `pending_done_count` — the
completion counter is decremented only by `wait_until_ready` via `handle_done`
(conjunct 1) — and decoding the Done-family token itself changes nothing:
whenever a Done, DoneInProc or DoneProc token is at the head of the buffered
payload, `recv_message` returns it with every session-state field
(packet_size, transaction_descriptor, pending_done_count, columns,
column_names) unchanged, advancing only the buffer (conjuncts 2–4). Session
state can change in a call that returns a Done-family message only through
other tokens (EnvChange, ColMetaData) consumed transparently earlier in the
same call, never through the Done decode itself. -/
theorem c5_done_decode_preserves_state :
    (∀ (mf : Nat) (c c' : MssqlStream) (r : Except DriverError Message),
        recv_message mf c = some (c', r) →
        c'.pending_done_count = c.pending_done_count) ∧
      (∀ (mf : Nat) (c : MssqlStream) (hdr : PacketHeader) (st : Nat) (ts : List Token),
        c.response = some (hdr, .done st :: ts) →
        recv_message (mf + 1) c =
          some ({ c with response := some (hdr, ts) }, .ok (.done st))) ∧
      (∀ (mf : Nat) (c : MssqlStream) (hdr : PacketHeader) (st : Nat) (ts : List Token),
        c.response = some (hdr, .doneInProc st :: ts) →
        recv_message (mf + 1) c =
          some ({ c with response := some (hdr, ts) }, .ok (.doneInProc st))) ∧
      ∀ (mf : Nat) (c : MssqlStream) (hdr : PacketHeader) (st : Nat) (ts : List Token),
        c.response = some (hdr, .doneProc st :: ts) →
        recv_message (mf + 1) c =
          some ({ c with response := some (hdr, ts) }, .ok (.doneProc st)) := by
  refine ⟨recv_message_pending, ?_, ?_, ?_⟩ <;>
    · intro mf c hdr st ts hresp
      rw [recv_message, hresp]

/-- C5 witness: the head-Done conjunct evaluated at a concrete state. -/
theorem c5_done_decode_witness :
    recv_message 1 { connect with response := some (sampleHeader, [.done 0]) } =
      some ({ connect with response := some (sampleHeader, ([] : List Token)) },
            .ok (.done 0)) :=
  c5_done_decode_preserves_state.2.1 0
    { connect with response := some (sampleHeader, [.done 0]) } sampleHeader 0 [] rfl

/-- C6: an Error token at the head of the buffered payload makes
`recv_message` return immediately with the decoded server error converted to a
driver-level database error (through `handle_error`), surfacing no message;
the tokens after the Error — in particular the accompanying Done — stay in the
buffer unconsumed, and no session-state field changes (conjunct 1).
`handle_error` itself converts without touching any state (conjunct 2). -/
theorem c6_error_token_short_circuits :
    (∀ (mf : Nat) (c : MssqlStream) (hdr : PacketHeader) (n sev : Nat) (msg : String)
        (ts : List Token),
        c.response = some (hdr, .errorToken n sev msg :: ts) →
        recv_message (mf + 1) c =
          some ({ c with response := some (hdr, ts) }, .error (.database n sev msg))) ∧
      ∀ (c : MssqlStream) (n sev : Nat) (msg : String),
        handle_error c n sev msg = (c, .error (.database n sev msg)) := by
  refine ⟨?_, fun _ _ _ _ => rfl⟩
  intro mf c hdr n sev msg ts hresp
  rw [recv_message, hresp]
  rfl

/-- C6 witness: a concrete buffer `[Error, Done]` — the call fails with the
database error and the Done token is still buffered afterwards. -/
theorem c6_error_token_witness :
    recv_message 1
        { connect with
            response := some (sampleHeader, [.errorToken 208 16 "Invalid object name", .done 0]) } =
      some ({ connect with response := some (sampleHeader, [Token.done 0]) },
            .error (.database 208 16 "Invalid object name")) :=
  c6_error_token_short_circuits.1 0
    { connect with
        response := some (sampleHeader, [.errorToken 208 16 "Invalid object name", .done 0]) }
    sampleHeader 208 16 "Invalid object name" [.done 0] rfl

lemma decodePacketHeader_ok_length :
    ∀ (stream rest : List Nat) (h : PacketHeader),
      decodePacketHeader stream = .ok (h, rest) →
      rest = stream.drop PacketHeader.SIZE ∧
        stream.length = rest.length + PacketHeader.SIZE := by
  intro stream rest h hd
  rcases stream with _ | ⟨t, stream⟩
  · simp [decodePacketHeader] at hd
  rcases stream with _ | ⟨b1, stream⟩
  · simp [decodePacketHeader] at hd
  rcases stream with _ | ⟨b2, stream⟩
  · simp [decodePacketHeader] at hd
  rcases stream with _ | ⟨b3, stream⟩
  · simp [decodePacketHeader] at hd
  rcases stream with _ | ⟨b4, stream⟩
  · simp [decodePacketHeader] at hd
  rcases stream with _ | ⟨b5, stream⟩
  · simp [decodePacketHeader] at hd
  rcases stream with _ | ⟨b6, stream⟩
  · simp [decodePacketHeader] at hd
  rcases stream with _ | ⟨b7, stream⟩
  · simp [decodePacketHeader] at hd
  rw [decodePacketHeader] at hd
  split at hd
  · simp only [Except.ok.injEq, Prod.mk.injEq] at hd
    obtain ⟨h1, h2⟩ := hd
    subst h2
    simp [PacketHeader.SIZE]
  · exact absurd hd (by simp)

/-- C7: when the first decoded header's packet type is not TabularResult,
`recv_packet` fails with the protocol error naming the offending type; the
unconsumed remainder it leaves is exactly everything after that one 8-byte
header — no payload byte is read (and the second conjunct pins that the
header consumed exactly `PacketHeader.SIZE` bytes). -/
theorem c7_non_tabular_packet_type_fails :
    ∀ (f : Nat) (stream rest : List Nat) (h : PacketHeader),
      decodePacketHeader stream = .ok (h, rest) → h.type ≠ .tabularResult →
      recv_packet f stream =
          some (.error (.protocol ("received unexpected packet: " ++ packetTypeName h.type)),
                rest) ∧
        rest = stream.drop PacketHeader.SIZE ∧
        stream.length = rest.length + PacketHeader.SIZE := by
  intro f stream rest h hdec hty
  obtain ⟨hr, hl⟩ := decodePacketHeader_ok_length stream rest h hdec
  refine ⟨?_, hr, hl⟩
  rw [recv_packet, hdec]
  dsimp only
  rw [if_neg hty]

/-- C7 witness: an RPC-typed header followed by three junk bytes — the read
fails naming "Rpc" and the three bytes after the header stay unconsumed. -/
theorem c7_non_tabular_witness :
    recv_packet 1 (encodePacketHeader (mkHeader .rpc 0 0 1) ++ [1, 2, 3]) =
        some (.error (.protocol ("received unexpected packet: " ++ packetTypeName .rpc)),
              [1, 2, 3]) ∧
      [1, 2, 3] = (encodePacketHeader (mkHeader .rpc 0 0 1) ++ [1, 2, 3]).drop
          PacketHeader.SIZE ∧
      (encodePacketHeader (mkHeader .rpc 0 0 1) ++ [1, 2, 3]).length =
        [1, 2, 3].length + PacketHeader.SIZE :=
  c7_non_tabular_packet_type_fails 1 _ [1, 2, 3] (mkHeader .rpc 0 0 1) (by rfl) (by decide)

/-- Start state for the transaction-lifecycle run of C8: the transport
delivers a begin-transaction EnvChange (descriptor 7), a row, a Done, a commit
EnvChange and a final Done, in one payload. -/
def c8Start : MssqlStream :=
  { connect with
      incoming :=
        [(sampleHeader,
          [.envChange (.beginTransaction 7), .row false, .done 0,
           .envChange .commitTransaction, .done 0])] }

/-- State after the first `recv_message` call on `c8Start` (begin consumed,
row surfaced): descriptor now 7. -/
def c8AfterRow : MssqlStream :=
  { connect with
      transaction_descriptor := 7,
      response := some (sampleHeader, [.done 0, .envChange .commitTransaction, .done 0]) }

/-- State after the second call (Done surfaced): descriptor still 7. -/
def c8AfterDone : MssqlStream :=
  { connect with
      transaction_descriptor := 7,
      response := some (sampleHeader, [.envChange .commitTransaction, .done 0]) }

/-- State after the third call (commit consumed, final Done surfaced):
descriptor reset to 0. -/
def c8AfterCommit : MssqlStream :=
  { connect with response := some (sampleHeader, ([] : List Token)) }

/-- C8: `transaction_descriptor` starts at 0 at connection open (conjunct 1);
an EnvChange BeginTransaction sets it to the carried descriptor (conjunct 2)
and CommitTransaction / RollbackTransaction reset it to 0 (conjuncts 3–4),
all transparently (the call continues decoding); when no
begin/commit/rollback EnvChange token is available, no `recv_message` call
changes the descriptor, so no other message type modifies it (conjunct 5);
and the begin → row/Done → commit run yields the descriptor sequence
0 → 7 → 7 → 0 (conjunct 6). -/
theorem c8_transaction_descriptor_lifecycle :
    connect.transaction_descriptor = 0 ∧
      (∀ (mf : Nat) (c : MssqlStream) (hdr : PacketHeader) (d : Nat) (ts : List Token),
        c.response = some (hdr, .envChange (.beginTransaction d) :: ts) →
        recv_message (mf + 1) c =
          recv_message mf { c with transaction_descriptor := d, response := some (hdr, ts) }) ∧
      (∀ (mf : Nat) (c : MssqlStream) (hdr : PacketHeader) (ts : List Token),
        c.response = some (hdr, .envChange .commitTransaction :: ts) →
        recv_message (mf + 1) c =
          recv_message mf { c with transaction_descriptor := 0, response := some (hdr, ts) }) ∧
      (∀ (mf : Nat) (c : MssqlStream) (hdr : PacketHeader) (ts : List Token),
        c.response = some (hdr, .envChange .rollbackTransaction :: ts) →
        recv_message (mf + 1) c =
          recv_message mf { c with transaction_descriptor := 0, response := some (hdr, ts) }) ∧
      (∀ (mf : Nat) (c : MssqlStream), noTdTokens c →
        ∀ (c' : MssqlStream) (r : Except DriverError Message),
          recv_message mf c = some (c', r) →
          c'.transaction_descriptor = c.transaction_descriptor) ∧
      (recv_message 3 c8Start = some (c8AfterRow, .ok (.row false [])) ∧
        c8AfterRow.transaction_descriptor = 7 ∧
        recv_message 1 c8AfterRow = some (c8AfterDone, .ok (.done 0)) ∧
        c8AfterDone.transaction_descriptor = 7 ∧
        recv_message 2 c8AfterDone = some (c8AfterCommit, .ok (.done 0)) ∧
        c8AfterCommit.transaction_descriptor = 0) := by
  refine ⟨rfl, ?_, ?_, ?_, recv_message_td, by decide⟩ <;>
    · intros mf c hdr
      intros
      rw [recv_message]
      rename_i hresp
      rw [hresp]

/-- C8 witness: the begin-transaction conjunct evaluated at a concrete buffered
payload `[EnvChange BeginTransaction 7, Done]`. -/
theorem c8_transaction_descriptor_witness :
    recv_message 2
        { connect with
            response := some (sampleHeader, [.envChange (.beginTransaction 7), .done 0]) } =
      recv_message 1
        { connect with
            transaction_descriptor := 7, response := some (sampleHeader, [Token.done 0]) } :=
  c8_transaction_descriptor_lifecycle.2.1 1
    { connect with response := some (sampleHeader, [.envChange (.beginTransaction 7), .done 0]) }
    sampleHeader 7 [.done 0] rfl

/-- C9: an EnvChange packet-size token parses its decimal ASCII string as a
u16 and overwrites `packet_size`, surfacing nothing — the call just continues
decoding from the updated state, so the very next `write_packet` chunks with
the new size (conjunct 1, together with conjunct 3, which restates that
`write_packet` frames a payload into chunks of `packet_size − header_size`
with the state's packet size); a string that does not parse as u16 makes
`recv_message` return a protocol error carrying the offending raw text, the
token again never being surfaced (conjunct 2). -/
theorem c9_packet_size_env_change :
    (∀ (mf : Nat) (c : MssqlStream) (hdr : PacketHeader) (s : String) (n : Nat)
        (ts : List Token),
        c.response = some (hdr, .envChange (.packetSize s) :: ts) → parseU16 s = some n →
        recv_message (mf + 1) c =
          recv_message mf { c with packet_size := n, response := some (hdr, ts) }) ∧
      (∀ (mf : Nat) (c : MssqlStream) (hdr : PacketHeader) (s : String) (ts : List Token),
        c.response = some (hdr, .envChange (.packetSize s) :: ts) → parseU16 s = none →
        recv_message (mf + 1) c =
          some ({ c with response := some (hdr, ts) },
                .error (.protocol ("Failed to parse message size: " ++ s)))) ∧
      ∀ (n : Nat) (ty : PacketType) (payload : List Nat), payload ≠ [] →
        write_packet n [] ty payload = emit ty 1 (chunks (n - PacketHeader.SIZE) payload) := by
  refine ⟨?_, ?_, fun n ty payload hp => write_packet_eq_emit ty payload hp⟩
  · intro mf c hdr s n ts hresp hparse
    rw [recv_message, hresp]
    dsimp only
    rw [hparse]
  · intro mf c hdr s ts hresp hparse
    rw [recv_message, hresp]
    dsimp only
    rw [hparse]

/-- C9 witness: the failure conjunct evaluated at the string "99999", which
exceeds the u16 range — `recv_message` fails with the protocol error carrying
the raw text and surfaces no message. -/
theorem c9_packet_size_witness :
    recv_message 1
        { connect with response := some (sampleHeader, [.envChange (.packetSize "99999")]) } =
      some ({ connect with response := some (sampleHeader, ([] : List Token)) },
            .error (.protocol ("Failed to parse message size: " ++ "99999"))) :=
  c9_packet_size_env_change.2.1 0
    { connect with response := some (sampleHeader, [.envChange (.packetSize "99999")]) }
    sampleHeader "99999" [] rfl (by decide)

/-- C10: `handle_done` decrements the unsigned `pending_done_count`
unconditionally, so at counter 0 the subtraction underflows — the operation is
undefined there (a panic, `none` in this embedding; conjunct 1) — while at any
positive counter it returns the state with the counter decremented by exactly
one (conjunct 2); the call site inside `wait_until_ready` runs `handle_done`
only under its `pending_done_count > 0` loop guard, so the loop can never
surface the underflow crash (conjunct 3). -/
theorem c10_handle_done_underflow :
    (∀ c : MssqlStream, c.pending_done_count = 0 → handle_done c = none) ∧
      (∀ c : MssqlStream, 0 < c.pending_done_count →
        handle_done c = some { c with pending_done_count := c.pending_done_count - 1 }) ∧
      ∀ (mf f : Nat) (c : MssqlStream) (r : Except DriverError MssqlStream),
        waitLoop mf f c = some r → r ≠ .error .crash := by
  refine ⟨?_, ?_, waitLoop_no_crash⟩
  · intro c h
    simp [handle_done, h]
  · intro c h
    rw [handle_done, if_neg (by omega)]

/-- C10 witness: at the freshly connected state the counter is 0 and
`handle_done` is undefined (underflow). -/
theorem c10_handle_done_witness : handle_done connect = none :=
  c10_handle_done_underflow.1 connect rfl

end Mssql

